import Mathlib

/-!
Shallow embedding of the wallet service core (`src/services/wallet.service.ts`)
of the dino-be repository, together with proofs about the claims of the
specification.

Modelling conventions:
* Monetary amounts are `numeric(20,2)` decimals in the store, manipulated with
  exact `Decimal` arithmetic (`plus`, `minus`, `lessThan`, `isNegative`,
  `isZero`).  We model them as integers (think "hundredths"); the embedding is
  exact for the additive/comparison operations the service uses.
* Only committed database state is modelled.  A thrown error inside
  `sql.begin` rolls the whole store transaction back, so an error result
  leaves the store unchanged (`applyTransfer`/`applyOp` make this explicit).
  The PENDING insert followed by the COMPLETED status update inside the same
  store transaction is modelled as a single append of the completed row: the
  intermediate PENDING row is never part of any committed state.
* Timestamps are irrelevant to the claims except for `processed_at`, which is
  kept as an `Option` (NULL = `none`).  The service's final UPDATE sets only
  `status`, so the model never writes `processed_at`.
* `charCodeAt` is modelled as the character's code point, which coincides with
  the UTF-16 code unit for the ASCII identifiers (UUIDs, digits, "-") in play.
-/

namespace Dino

/-- status column of `transactions` (PENDING, COMPLETED, FAILED). -/
inductive TxStatus
  | PENDING
  | COMPLETED
  | FAILED
deriving DecidableEq

/-- transaction_type column of `transactions` (TOP_UP, BONUS, SPEND). -/
inductive TxType
  | TOP_UP
  | BONUS
  | SPEND
deriving DecidableEq

/-- entry_type column of `ledger_entries` (DEBIT, CREDIT). -/
inductive EntryType
  | DEBIT
  | CREDIT
deriving DecidableEq

/-- rendering of a status used in the idempotency error message. -/
def statusText : TxStatus → String
  | .PENDING => "PENDING"
  | .COMPLETED => "COMPLETED"
  | .FAILED => "FAILED"

/-- row of `asset_types`. -/
structure AssetType where
  id : Nat
  name : String
  code : String
deriving DecidableEq

/-- row of `wallets` (timestamps omitted). -/
structure Wallet where
  id : Nat
  user_id : String
  asset_type_id : Nat
  balance : Int
  version : Nat
deriving DecidableEq

/-- row of `transactions` (`created_at` omitted; `processed_at` kept because
the specification talks about it — NULL is `none`). -/
structure Txn where
  id : Nat
  idempotency_key : String
  transaction_type : TxType
  user_id : String
  asset_type_id : Nat
  amount : Int
  status : TxStatus
  metadata : String
  processed_at : Option Nat
deriving DecidableEq

/-- row of `ledger_entries` (surrogate id and timestamp omitted). -/
structure LedgerEntry where
  transaction_id : Nat
  wallet_id : Nat
  entry_type : EntryType
  amount : Int
  balance_after : Int
deriving DecidableEq

/-- committed database state: the four relations plus the sequences backing
the `bigserial`/uuid primary keys (modelled as counters). -/
structure Store where
  asset_types : List AssetType
  wallets : List Wallet
  transactions : List Txn
  ledger_entries : List LedgerEntry
  nextWalletId : Nat
  nextTxnId : Nat
deriving DecidableEq

/-- errors thrown by the service: `InsufficientFundsError`,
`IdempotencyError`, and plain `Error` for everything else. -/
inductive WErr
  | plain (msg : String)
  | insufficientFunds (msg : String)
  | idempotency (msg : String)
deriving DecidableEq

/-- the all-zeros system user id (`SYSTEM_USER_ID` in the source). -/
def SYSTEM_USER_ID : String := "00000000-0000-0000-0000-000000000000"

/-- SELECT * FROM asset_types WHERE name = i OR code = i (first row). -/
def getAssetType (assets : List AssetType) (identifier : String) : Option AssetType :=
  assets.find? fun a => a.name == identifier || a.code == identifier

/-- SELECT * FROM transactions WHERE idempotency_key = k (first row; the
column carries a unique constraint). -/
def findTxnByKey (txns : List Txn) (key : String) : Option Txn :=
  txns.find? fun t => t.idempotency_key == key

/-- lookup of the wallet row keyed by (user_id, asset_type_id); the pair
carries a unique constraint. -/
def findWallet (ws : List Wallet) (u : String) (a : Nat) : Option Wallet :=
  ws.find? fun w => w.user_id == u && w.asset_type_id == a

/-- balance of the (user, asset) wallet, `0` when no row exists (the source's
`getBalance` likewise defaults to "0"). -/
def walletBalance (ws : List Wallet) (u : String) (a : Nat) : Int :=
  match findWallet ws u a with
  | some w => w.balance
  | none => 0

/-- id of the (user, asset) wallet row, `0` when no row exists. -/
def walletIdOf (ws : List Wallet) (u : String) (a : Nat) : Nat :=
  match findWallet ws u a with
  | some w => w.id
  | none => 0

/-- INSERT INTO wallets ... ON CONFLICT (user_id, asset_type_id) DO NOTHING —
the auto-onboarding step for one user id. -/
def ensureWallet (st : Store) (u : String) (a : Nat) : Store :=
  match findWallet st.wallets u a with
  | some _ => st
  | none =>
    { st with wallets := st.wallets ++ [⟨st.nextWalletId, u, a, 0, 1⟩],
              nextWalletId := st.nextWalletId + 1 }

/-- the auto-onboarding loop `for (const uid of sortedUserIds)`. -/
def ensureWallets (st : Store) (uids : List String) (a : Nat) : Store :=
  uids.foldl (fun s uid => ensureWallet s uid a) st

/-- UPDATE wallets SET balance = newBal, version = version + 1 WHERE id = wid. -/
def updateBalance (ws : List Wallet) (wid : Nat) (newBal : Int) : List Wallet :=
  ws.map fun w =>
    if w.id = wid then { w with balance := newBal, version := w.version + 1 } else w

/-- lexicographic comparison of character lists by code point — the order
JavaScript's default `sort()` comparator induces on the ASCII strings in
play. -/
def charListLe : List Char → List Char → Bool
  | [], _ => true
  | _ :: _, [] => false
  | a :: as, b :: bs =>
    if a.toNat < b.toNat then true
    else if b.toNat < a.toNat then false
    else charListLe as bs

/-- the string order used by `Array.prototype.sort()`. -/
def strLe (a b : String) : Prop := charListLe a.data b.data = true

instance : DecidableRel strLe := fun a b => Bool.decEq (charListLe a.data b.data) true

/-- JavaScript `Array.prototype.sort()` on strings: a stable sort by
lexicographic order. -/
def sortStrings (l : List String) : List String :=
  List.insertionSort strLe l

/-- the hash loop of `generateLockKey`: `hash = (hash << 5n) - hash + code`
over arbitrary-precision integers (`h <<< 5 = h * 32`). -/
def jsHash (s : String) : Int :=
  s.data.foldl (fun h c => h * 32 - h + (c.toNat : Int)) 0

/-- `BigInt.asIntN(64, n)`: reduce to a signed 64-bit two's-complement value. -/
def asIntN64 (n : Int) : Int :=
  let m := n % (2 ^ 64 : Int)
  if m < 2 ^ 63 then m else m - 2 ^ 64

/-- `generateLockKey(...parts)`: sort the parts, join with "-", fold the
character codes through the hash, reduce to signed 64-bit. -/
def generateLockKey (parts : List String) : Int :=
  asIntN64 (jsHash (String.intercalate "-" (sortStrings parts)))

/-- steps 5-7 of `transfer` once both wallet rows are locked and the balance
check has passed: insert the transaction row, update the source wallet and
write the DEBIT entry, update the destination wallet (from the balance read
before the first update) and write the CREDIT entry, complete the
transaction.  Only `status` is updated at the final step; `processed_at` is
never written. -/
def transferCommit (st1 : Store) (sourceWallet destWallet : Wallet)
    (assetTypeId : Nat) (amount : Int) (transactionType : TxType)
    (idempotencyKey ownerId metadata : String) : Store × Txn :=
  let txnId := st1.nextTxnId
  let newSourceBalance := sourceWallet.balance - amount
  let newDestBalance := destWallet.balance + amount
  let wallets1 := updateBalance st1.wallets sourceWallet.id newSourceBalance
  let wallets2 := updateBalance wallets1 destWallet.id newDestBalance
  let finalTransaction : Txn :=
    { id := txnId, idempotency_key := idempotencyKey,
      transaction_type := transactionType, user_id := ownerId,
      asset_type_id := assetTypeId, amount := amount,
      status := .COMPLETED, metadata := metadata, processed_at := none }
  let debitEntry : LedgerEntry :=
    ⟨txnId, sourceWallet.id, .DEBIT, amount, newSourceBalance⟩
  let creditEntry : LedgerEntry :=
    ⟨txnId, destWallet.id, .CREDIT, amount, newDestBalance⟩
  ({ st1 with wallets := wallets2,
              transactions := st1.transactions ++ [finalTransaction],
              ledger_entries := st1.ledger_entries ++ [debitEntry, creditEntry],
              nextTxnId := txnId + 1 },
   finalTransaction)

/-- `WalletService.transfer`, the core transfer logic, as a function on the
committed store.  Mirrors the source order: amount validation, idempotency
gate, auto-onboarding over the sorted user ids, row lookup, balance check,
then the commit.  An error result models a rolled-back store transaction. -/
def transfer (st : Store) (fromUserId toUserId : String) (assetTypeId : Nat)
    (amount : Int) (transactionType : TxType) (idempotencyKey : String)
    (ownerId metadata : String) : Except WErr (Store × Txn) :=
  if amount ≤ 0 then
    .error (.plain "Amount must be positive")
  else
    match findTxnByKey st.transactions idempotencyKey with
    | some existingTx =>
      if existingTx.status = TxStatus.COMPLETED then
        .ok (st, existingTx)
      else
        .error (.idempotency
          ("Transaction previously processed with status: " ++ statusText existingTx.status))
    | none =>
      let sortedUserIds := sortStrings [fromUserId, toUserId]
      let st1 := ensureWallets st sortedUserIds assetTypeId
      match findWallet st1.wallets fromUserId assetTypeId,
            findWallet st1.wallets toUserId assetTypeId with
      | some sourceWallet, some destWallet =>
        if sourceWallet.balance < amount then
          .error (.insufficientFunds
            ("Insufficient funds in source wallet (User: " ++ fromUserId ++ ")"))
        else
          .ok (transferCommit st1 sourceWallet destWallet assetTypeId amount
                transactionType idempotencyKey ownerId metadata)
      | _, _ => .error (.plain "Critical: Wallet should have been created but not found")

/-- committed store after a `transfer` call: the new store on success, the
unchanged store on a thrown error (rollback of the store transaction). -/
def applyTransfer (st : Store) (fromUserId toUserId : String) (assetTypeId : Nat)
    (amount : Int) (transactionType : TxType) (idempotencyKey ownerId metadata : String) : Store :=
  match transfer st fromUserId toUserId assetTypeId amount transactionType idempotencyKey ownerId metadata with
  | .ok (st', _) => st'
  | .error _ => st

/-- `WalletService.topUp`: System -> User. -/
def topUp (st : Store) (userId assetCode : String) (amount : Int)
    (idempotencyKey : String) : Except WErr (Store × Txn) :=
  match getAssetType st.asset_types assetCode with
  | none => .error (.plain ("Invalid asset code: " ++ assetCode))
  | some asset =>
    transfer st SYSTEM_USER_ID userId asset.id amount TxType.TOP_UP idempotencyKey userId ""

/-- `WalletService.grantBonus`: System -> User. -/
def grantBonus (st : Store) (userId assetCode : String) (amount : Int)
    (idempotencyKey : String) : Except WErr (Store × Txn) :=
  match getAssetType st.asset_types assetCode with
  | none => .error (.plain ("Invalid asset code: " ++ assetCode))
  | some asset =>
    transfer st SYSTEM_USER_ID userId asset.id amount TxType.BONUS idempotencyKey userId ""

/-- `WalletService.spend`: User -> System. -/
def spend (st : Store) (userId assetCode : String) (amount : Int)
    (idempotencyKey : String) : Except WErr (Store × Txn) :=
  match getAssetType st.asset_types assetCode with
  | none => .error (.plain ("Invalid asset code: " ++ assetCode))
  | some asset =>
    transfer st userId SYSTEM_USER_ID asset.id amount TxType.SPEND idempotencyKey userId ""

/-- an external operation of the public surface. -/
inductive OpKind
  | TopUpOp
  | BonusOp
  | SpendOp
deriving DecidableEq

/-- arguments of one call of topUp / grantBonus / spend. -/
structure Op where
  kind : OpKind
  userId : String
  assetCode : String
  amount : Int
  idempotencyKey : String
deriving DecidableEq

/-- dispatch one operation. -/
def runOp (st : Store) (op : Op) : Except WErr (Store × Txn) :=
  match op.kind with
  | .TopUpOp => topUp st op.userId op.assetCode op.amount op.idempotencyKey
  | .BonusOp => grantBonus st op.userId op.assetCode op.amount op.idempotencyKey
  | .SpendOp => spend st op.userId op.assetCode op.amount op.idempotencyKey

/-- committed store after one operation (errors roll back). -/
def applyOp (st : Store) (op : Op) : Store :=
  match runOp st op with
  | .ok (st', _) => st'
  | .error _ => st

/-- committed store after a sequence of operations. -/
def applyOps (st : Store) (ops : List Op) : Store :=
  ops.foldl applyOp st

/-- the ledger entries belonging to one transaction. -/
def ledgerFor (entries : List LedgerEntry) (txnId : Nat) : List LedgerEntry :=
  entries.filter fun e => e.transaction_id == txnId

/-- system-wide sum of wallet balances for one asset. -/
def assetSum (ws : List Wallet) (a : Nat) : Int :=
  (ws.map fun w => if w.asset_type_id = a then w.balance else 0).sum

/-- well-formedness of a committed store, guaranteed by the schema: wallet
primary keys are below the sequence counter and pairwise distinct, the
(user_id, asset_type_id) pairs are pairwise distinct (unique constraint), and
ledger entries reference already-allocated transaction ids. -/
def Store.WF (st : Store) : Prop :=
  (∀ w ∈ st.wallets, w.id < st.nextWalletId) ∧
  (st.wallets.map Wallet.id).Nodup ∧
  (st.wallets.map fun w => (w.user_id, w.asset_type_id)).Nodup ∧
  (∀ e ∈ st.ledger_entries, e.transaction_id < st.nextTxnId)

instance (st : Store) : Decidable st.WF := by
  unfold Store.WF
  infer_instance

/-- signed contribution of a ledger entry to its wallet's balance
(CREDIT positive, DEBIT negative), as in reconstruction property (P2). -/
def entryDelta (e : LedgerEntry) : Int :=
  match e.entry_type with
  | .CREDIT => e.amount
  | .DEBIT => -e.amount

/-- small committed store used by the concrete witnesses: the GOLD asset, the
seeded system wallet, and one user wallet holding 50. -/
def stW : Store :=
  { asset_types := [⟨1, "Gold Coins", "GOLD"⟩],
    wallets := [⟨1, SYSTEM_USER_ID, 1, 1000, 1⟩, ⟨2, "u1", 1, 50, 1⟩],
    transactions := [],
    ledger_entries := [],
    nextWalletId := 3,
    nextTxnId := 1 }

/-- a committed transaction already stored under key "k0". -/
def txn0 : Txn := ⟨1, "k0", .TOP_UP, "u1", 1, 25, .COMPLETED, "", none⟩

/-- store in which key "k0" is already bound to the COMPLETED `txn0`. -/
def stC : Store := { stW with transactions := [txn0], nextTxnId := 2 }

/-- a transaction stuck in PENDING under key "kp". -/
def txnP : Txn := ⟨1, "kp", .SPEND, "u1", 1, 25, .PENDING, "", none⟩

/-- store in which key "kp" is bound to the PENDING `txnP`. -/
def stP : Store := { stW with transactions := [txnP], nextTxnId := 2 }

/-- concrete sequence of operations used by the conservation witness. -/
def opsW : List Op :=
  [⟨.TopUpOp, "u1", "GOLD", 20, "k1"⟩,
   ⟨.SpendOp, "u1", "GOLD", 30, "k2"⟩,
   ⟨.BonusOp, "u2", "GOLD", 5, "k3"⟩]

/-! ## lemmas about the lookup and auto-onboarding primitives -/

theorem findWallet_props {ws : List Wallet} {u : String} {a : Nat} {w : Wallet}
    (h : findWallet ws u a = some w) :
    w.user_id = u ∧ w.asset_type_id = a ∧ w ∈ ws := by
  unfold findWallet at h
  have h1 := List.find?_some h
  have h2 := List.mem_of_find?_eq_some h
  simp only [Bool.and_eq_true, beq_iff_eq] at h1
  exact ⟨h1.1, h1.2, h2⟩

theorem findWallet_none {ws : List Wallet} {u : String} {a : Nat}
    (h : findWallet ws u a = none) :
    ∀ w ∈ ws, ¬ (w.user_id = u ∧ w.asset_type_id = a) := by
  unfold findWallet at h
  rw [List.find?_eq_none] at h
  intro w hw hc
  exact h w hw (by simp [hc.1, hc.2])

theorem findWallet_append (ws₁ ws₂ : List Wallet) (u : String) (a : Nat) :
    findWallet (ws₁ ++ ws₂) u a = (findWallet ws₁ u a).or (findWallet ws₂ u a) := by
  unfold findWallet
  exact List.find?_append

theorem findTxnByKey_append_none {l : List Txn} {k : String}
    (h : findTxnByKey l k = none) (t : Txn) :
    findTxnByKey (l ++ [t]) k = if t.idempotency_key == k then some t else none := by
  unfold findTxnByKey at *
  rw [List.find?_append, h]
  cases ht : t.idempotency_key == k <;> simp [List.find?, ht]

theorem ensureWallet_transactions (st : Store) (u : String) (a : Nat) :
    (ensureWallet st u a).transactions = st.transactions := by
  unfold ensureWallet
  cases findWallet st.wallets u a <;> rfl

theorem ensureWallet_ledger (st : Store) (u : String) (a : Nat) :
    (ensureWallet st u a).ledger_entries = st.ledger_entries := by
  unfold ensureWallet
  cases findWallet st.wallets u a <;> rfl

theorem ensureWallet_nextTxnId (st : Store) (u : String) (a : Nat) :
    (ensureWallet st u a).nextTxnId = st.nextTxnId := by
  unfold ensureWallet
  cases findWallet st.wallets u a <;> rfl

theorem ensureWallet_findWallet_pres {st : Store} {u : String} {a : Nat} {w : Wallet}
    (u' : String) (a' : Nat) (h : findWallet st.wallets u a = some w) :
    findWallet (ensureWallet st u' a').wallets u a = some w := by
  unfold ensureWallet
  cases hfind : findWallet st.wallets u' a' with
  | some _ => exact h
  | none =>
    show findWallet (st.wallets ++ [⟨st.nextWalletId, u', a', 0, 1⟩]) u a = some w
    rw [findWallet_append, h]
    rfl

theorem ensureWallet_walletBalance (st : Store) (u' : String) (a' : Nat)
    (u : String) (a : Nat) :
    walletBalance (ensureWallet st u' a').wallets u a = walletBalance st.wallets u a := by
  cases h : findWallet st.wallets u a with
  | some w =>
    rw [walletBalance, ensureWallet_findWallet_pres u' a' h, walletBalance, h]
  | none =>
    unfold ensureWallet
    cases hfind : findWallet st.wallets u' a' with
    | some _ => rfl
    | none =>
      show walletBalance (st.wallets ++ [⟨st.nextWalletId, u', a', 0, 1⟩]) u a = _
      unfold walletBalance
      rw [findWallet_append, h]
      by_cases hm : u' = u ∧ a' = a
      · simp [findWallet, List.find?, hm.1, hm.2]
      · have : ¬ ((u' == u) && (a' == a)) = true := by
          simp only [Bool.and_eq_true, beq_iff_eq]
          exact hm
        simp [findWallet, List.find?, this]

theorem ensureWallet_findWallet_self (st : Store) (u : String) (a : Nat) :
    ∃ w, findWallet (ensureWallet st u a).wallets u a = some w ∧
      w.balance = walletBalance st.wallets u a ∧ w.user_id = u ∧ w.asset_type_id = a := by
  unfold ensureWallet
  cases h : findWallet st.wallets u a with
  | some w =>
    obtain ⟨h1, h2, _⟩ := findWallet_props h
    exact ⟨w, h, by rw [walletBalance, h], h1, h2⟩
  | none =>
    refine ⟨⟨st.nextWalletId, u, a, 0, 1⟩, ?_, ?_, rfl, rfl⟩
    · show findWallet (st.wallets ++ [⟨st.nextWalletId, u, a, 0, 1⟩]) u a = _
      rw [findWallet_append, h]
      simp [findWallet, List.find?]
    · rw [walletBalance, h]

theorem ensureWallets_cons (st : Store) (u : String) (us : List String) (a : Nat) :
    ensureWallets st (u :: us) a = ensureWallets (ensureWallet st u a) us a := rfl

theorem ensureWallets_transactions (st : Store) (uids : List String) (a : Nat) :
    (ensureWallets st uids a).transactions = st.transactions := by
  induction uids generalizing st with
  | nil => rfl
  | cons u us ih => rw [ensureWallets_cons, ih, ensureWallet_transactions]

theorem ensureWallets_ledger (st : Store) (uids : List String) (a : Nat) :
    (ensureWallets st uids a).ledger_entries = st.ledger_entries := by
  induction uids generalizing st with
  | nil => rfl
  | cons u us ih => rw [ensureWallets_cons, ih, ensureWallet_ledger]

theorem ensureWallets_nextTxnId (st : Store) (uids : List String) (a : Nat) :
    (ensureWallets st uids a).nextTxnId = st.nextTxnId := by
  induction uids generalizing st with
  | nil => rfl
  | cons u us ih => rw [ensureWallets_cons, ih, ensureWallet_nextTxnId]

theorem ensureWallets_walletBalance (st : Store) (uids : List String) (a' : Nat)
    (u : String) (a : Nat) :
    walletBalance (ensureWallets st uids a').wallets u a = walletBalance st.wallets u a := by
  induction uids generalizing st with
  | nil => rfl
  | cons v us ih => rw [ensureWallets_cons, ih, ensureWallet_walletBalance]

theorem ensureWallets_findWallet_pres {st : Store} {u : String} {a : Nat} {w : Wallet}
    (uids : List String) (a' : Nat) (h : findWallet st.wallets u a = some w) :
    findWallet (ensureWallets st uids a').wallets u a = some w := by
  induction uids generalizing st with
  | nil => exact h
  | cons v us ih =>
    rw [ensureWallets_cons]
    exact ih (ensureWallet_findWallet_pres v a' h)

theorem ensureWallets_findWallet_self (u : String) (st : Store) (uids : List String)
    (a : Nat) (hu : u ∈ uids) :
    ∃ w, findWallet (ensureWallets st uids a).wallets u a = some w ∧
      w.balance = walletBalance st.wallets u a ∧ w.user_id = u ∧ w.asset_type_id = a := by
  induction uids generalizing st with
  | nil => cases hu
  | cons v us ih =>
    rw [ensureWallets_cons]
    rcases List.mem_cons.mp hu with h | h
    · subst h
      obtain ⟨w, hw, hb, hu', ha'⟩ := ensureWallet_findWallet_self st u a
      exact ⟨w, ensureWallets_findWallet_pres us a hw, by rw [hb], hu', ha'⟩
    · obtain ⟨w, hw, hb, hu', ha'⟩ := ih (ensureWallet st v a) h
      exact ⟨w, hw, by rw [hb, ensureWallet_walletBalance], hu', ha'⟩

/-! ## lemmas about balance updates and the per-asset balance sum -/

theorem updateBalance_cons (x : Wallet) (xs : List Wallet) (wid : Nat) (b : Int) :
    updateBalance (x :: xs) wid b =
      (if x.id = wid then { x with balance := b, version := x.version + 1 } else x) ::
        updateBalance xs wid b := rfl

theorem updateBalance_map_id (ws : List Wallet) (wid : Nat) (b : Int) :
    (updateBalance ws wid b).map Wallet.id = ws.map Wallet.id := by
  unfold updateBalance
  rw [List.map_map]
  apply List.map_congr_left
  intro w _
  by_cases h : w.id = wid <;> simp [h]

theorem updateBalance_map_pair (ws : List Wallet) (wid : Nat) (b : Int) :
    ((updateBalance ws wid b).map fun w => (w.user_id, w.asset_type_id)) =
      ws.map fun w => (w.user_id, w.asset_type_id) := by
  unfold updateBalance
  rw [List.map_map]
  apply List.map_congr_left
  intro w _
  by_cases h : w.id = wid <;> simp [h]

theorem updateBalance_of_not_mem {ws : List Wallet} {wid : Nat}
    (h : wid ∉ ws.map Wallet.id) (b : Int) :
    updateBalance ws wid b = ws := by
  induction ws with
  | nil => rfl
  | cons w ws ih =>
    simp only [List.map_cons, List.mem_cons, not_or] at h
    rw [updateBalance_cons, if_neg (fun hh => h.1 hh.symm), ih h.2]

theorem mem_updateBalance {ws : List Wallet} {w : Wallet} (hw : w ∈ ws)
    {wid : Nat} (hne : w.id ≠ wid) (b : Int) :
    w ∈ updateBalance ws wid b := by
  unfold updateBalance
  have heq : (if w.id = wid then { w with balance := b, version := w.version + 1 } else w) = w :=
    if_neg hne
  exact heq ▸ List.mem_map_of_mem _ hw

theorem updateBalance_findWallet (ws : List Wallet) (wid : Nat) (b : Int)
    (u : String) (a : Nat) :
    findWallet (updateBalance ws wid b) u a =
      (findWallet ws u a).map fun w =>
        if w.id = wid then { w with balance := b, version := w.version + 1 } else w := by
  induction ws with
  | nil => rfl
  | cons w ws ih =>
    rw [updateBalance_cons]
    unfold findWallet at *
    by_cases hid : w.id = wid
    · by_cases hm : (w.user_id == u && w.asset_type_id == a) = true
      · simp [List.find?_cons, hm, hid]
      · have hmf : (w.user_id == u && w.asset_type_id == a) = false := by
          simpa using hm
        have hm2 : ((({ w with balance := b, version := w.version + 1 } : Wallet).user_id == u) &&
            (({ w with balance := b, version := w.version + 1 } : Wallet).asset_type_id == a)) = false := by
          simpa using hm
        simp only [if_pos hid]
        rw [List.find?_cons, List.find?_cons]
        simp only [hmf, hm2]
        exact ih
    · by_cases hm : (w.user_id == u && w.asset_type_id == a) = true
      · simp [List.find?_cons, hm, hid]
      · have hmf : (w.user_id == u && w.asset_type_id == a) = false := by
          simpa using hm
        simp only [if_neg hid]
        rw [List.find?_cons, List.find?_cons]
        simp only [hmf]
        exact ih

theorem assetSum_cons (x : Wallet) (xs : List Wallet) (a : Nat) :
    assetSum (x :: xs) a = (if x.asset_type_id = a then x.balance else 0) + assetSum xs a := by
  unfold assetSum
  rw [List.map_cons, List.sum_cons]

theorem assetSum_append (ws₁ ws₂ : List Wallet) (a : Nat) :
    assetSum (ws₁ ++ ws₂) a = assetSum ws₁ a + assetSum ws₂ a := by
  unfold assetSum
  rw [List.map_append, List.sum_append]

theorem updateBalance_assetSum {ws : List Wallet} {w : Wallet} {wid : Nat}
    (hnd : (ws.map Wallet.id).Nodup) (hw : w ∈ ws) (hid : w.id = wid) (b : Int) (a : Nat) :
    assetSum (updateBalance ws wid b) a =
      assetSum ws a + (if w.asset_type_id = a then b - w.balance else 0) := by
  induction ws with
  | nil => cases hw
  | cons x xs ih =>
    simp only [List.map_cons, List.nodup_cons] at hnd
    rw [updateBalance_cons]
    rcases List.mem_cons.mp hw with h | h
    · subst h
      have hnm : wid ∉ xs.map Wallet.id := by rw [← hid]; exact hnd.1
      rw [if_pos hid, updateBalance_of_not_mem hnm, assetSum_cons, assetSum_cons]
      by_cases ha : w.asset_type_id = a <;> (simp [ha]; try ring)
    · have hxne : x.id ≠ wid := by
        intro hx
        apply hnd.1
        rw [hx, ← hid]
        exact List.mem_map_of_mem Wallet.id h
      rw [if_neg hxne, assetSum_cons, assetSum_cons, ih hnd.2 h]
      ring

theorem updateBalance_id_lt {ws : List Wallet} {wid : Nat} {b : Int} {n : Nat}
    (h : ∀ w ∈ ws, w.id < n) : ∀ w ∈ updateBalance ws wid b, w.id < n := by
  intro w' hw'
  unfold updateBalance at hw'
  obtain ⟨w, hw, rfl⟩ := List.mem_map.mp hw'
  by_cases hid : w.id = wid
  · simpa [hid] using h w hw
  · simpa [hid] using h w hw

/-! ## auto-onboarding preserves the per-asset sum and well-formedness -/

theorem ensureWallet_assetSum (st : Store) (u : String) (a' a : Nat) :
    assetSum (ensureWallet st u a').wallets a = assetSum st.wallets a := by
  unfold ensureWallet
  cases hfind : findWallet st.wallets u a' with
  | some _ => rfl
  | none =>
    show assetSum (st.wallets ++ [⟨st.nextWalletId, u, a', 0, 1⟩]) a = _
    rw [assetSum_append]
    simp [assetSum]

theorem ensureWallets_assetSum (st : Store) (uids : List String) (a' a : Nat) :
    assetSum (ensureWallets st uids a').wallets a = assetSum st.wallets a := by
  induction uids generalizing st with
  | nil => rfl
  | cons v us ih => rw [ensureWallets_cons, ih, ensureWallet_assetSum]

theorem ensureWallet_WF {st : Store} (h : st.WF) (u : String) (a : Nat) :
    (ensureWallet st u a).WF := by
  obtain ⟨h1, h2, h3, h4⟩ := h
  unfold ensureWallet
  cases hfind : findWallet st.wallets u a with
  | some _ => exact ⟨h1, h2, h3, h4⟩
  | none =>
    refine ⟨?_, ?_, ?_, h4⟩
    · intro w hw
      rcases List.mem_append.mp hw with hm | hm
      · exact Nat.lt_succ_of_lt (h1 w hm)
      · simp only [List.mem_singleton] at hm
        subst hm
        exact Nat.lt_succ_self _
    · rw [List.map_append]
      simp only [List.map_cons, List.map_nil]
      rw [List.nodup_append]
      refine ⟨h2, List.nodup_singleton _, ?_⟩
      intro x hx hx'
      simp only [List.mem_singleton] at hx'
      subst hx'
      obtain ⟨w, hw, hwid⟩ := List.mem_map.mp hx
      exact absurd hwid (Nat.ne_of_lt (h1 w hw))
    · rw [List.map_append]
      simp only [List.map_cons, List.map_nil]
      rw [List.nodup_append]
      refine ⟨h3, List.nodup_singleton _, ?_⟩
      intro x hx hx'
      simp only [List.mem_singleton] at hx'
      subst hx'
      obtain ⟨w, hw, hwp⟩ := List.mem_map.mp hx
      exact findWallet_none hfind w hw ⟨congrArg Prod.fst hwp, congrArg Prod.snd hwp⟩

theorem ensureWallets_WF {st : Store} (h : st.WF) (uids : List String) (a : Nat) :
    (ensureWallets st uids a).WF := by
  induction uids generalizing st with
  | nil => exact h
  | cons v us ih => rw [ensureWallets_cons]; exact ih (ensureWallet_WF h v a)

/-! ## sorting and the advisory-lock key -/

theorem charListLe_total : ∀ l₁ l₂ : List Char,
    charListLe l₁ l₂ = true ∨ charListLe l₂ l₁ = true := by
  intro l₁
  induction l₁ with
  | nil => intro l₂; left; rfl
  | cons a as ih =>
    intro l₂
    cases l₂ with
    | nil => right; rfl
    | cons b bs =>
      by_cases h1 : a.toNat < b.toNat
      · left
        simp [charListLe, h1]
      · by_cases h2 : b.toNat < a.toNat
        · right
          simp [charListLe, h2]
        · rcases ih bs with h | h
          · left
            simp [charListLe, h1, h2, h]
          · right
            simp [charListLe, h1, h2, h]

theorem charListLe_trans : ∀ l₁ l₂ l₃ : List Char,
    charListLe l₁ l₂ = true → charListLe l₂ l₃ = true → charListLe l₁ l₃ = true := by
  intro l₁
  induction l₁ with
  | nil => intro l₂ l₃ _ _; rfl
  | cons a as ih =>
    intro l₂ l₃ h12 h23
    cases l₂ with
    | nil => simp [charListLe] at h12
    | cons b bs =>
      cases l₃ with
      | nil => simp [charListLe] at h23
      | cons c cs =>
        by_cases hab : a.toNat < b.toNat
        · by_cases hbc : b.toNat < c.toNat
          · simp [charListLe, Nat.lt_trans hab hbc]
          · by_cases hcb : c.toNat < b.toNat
            · simp [charListLe, hbc, hcb] at h23
            · have hac : a.toNat < c.toNat := by omega
              simp [charListLe, hac]
        · by_cases hba : b.toNat < a.toNat
          · rw [charListLe, if_neg hab, if_pos hba] at h12
            cases h12
          · rw [charListLe, if_neg hab, if_neg hba] at h12
            by_cases hbc : b.toNat < c.toNat
            · have hac : a.toNat < c.toNat := by omega
              simp [charListLe, hac]
            · by_cases hcb : c.toNat < b.toNat
              · rw [charListLe, if_neg hbc, if_pos hcb] at h23
                cases h23
              · rw [charListLe, if_neg hbc, if_neg hcb] at h23
                have hnac : ¬ a.toNat < c.toNat := by omega
                have hnca : ¬ c.toNat < a.toNat := by omega
                rw [charListLe, if_neg hnac, if_neg hnca]
                exact ih bs cs h12 h23

theorem charListLe_antisymm : ∀ l₁ l₂ : List Char,
    charListLe l₁ l₂ = true → charListLe l₂ l₁ = true → l₁ = l₂ := by
  intro l₁
  induction l₁ with
  | nil =>
    intro l₂ _ h21
    cases l₂ with
    | nil => rfl
    | cons b bs => simp [charListLe] at h21
  | cons a as ih =>
    intro l₂ h12 h21
    cases l₂ with
    | nil => simp [charListLe] at h12
    | cons b bs =>
      by_cases hab : a.toNat < b.toNat
      · have hnba : ¬ b.toNat < a.toNat := by omega
        rw [charListLe, if_neg hnba, if_pos hab] at h21
        cases h21
      · by_cases hba : b.toNat < a.toNat
        · have hnab : ¬ a.toNat < b.toNat := by omega
          rw [charListLe, if_neg hnab, if_pos hba] at h12
          cases h12
        · rw [charListLe, if_neg hab, if_neg hba] at h12
          rw [charListLe, if_neg hba, if_neg hab] at h21
          have hch : a = b := by
            have hn : a.toNat = b.toNat := by omega
            exact Char.ext (UInt32.toNat.inj hn)
          rw [hch, ih bs h12 h21]

instance : IsTotal String strLe :=
  ⟨fun a b => charListLe_total a.data b.data⟩

instance : IsTrans String strLe :=
  ⟨fun a b c => charListLe_trans a.data b.data c.data⟩

instance : IsAntisymm String strLe :=
  ⟨fun a b h12 h21 => by
    have hd := charListLe_antisymm a.data b.data h12 h21
    cases a
    cases b
    exact congrArg String.mk hd⟩

theorem mem_sortStrings {x : String} {l : List String} (h : x ∈ l) : x ∈ sortStrings l :=
  ((List.perm_insertionSort strLe l).mem_iff).mpr h

theorem sortStrings_perm_eq {l₁ l₂ : List String} (h : List.Perm l₁ l₂) :
    sortStrings l₁ = sortStrings l₂ :=
  List.eq_of_perm_of_sorted
    ((List.perm_insertionSort strLe l₁).trans
      (h.trans (List.perm_insertionSort strLe l₂).symm))
    (List.sorted_insertionSort strLe l₁)
    (List.sorted_insertionSort strLe l₂)

theorem generateLockKey_perm {l₁ l₂ : List String} (h : List.Perm l₁ l₂) :
    generateLockKey l₁ = generateLockKey l₂ := by
  unfold generateLockKey
  rw [sortStrings_perm_eq h]

/-! ## shape of a committed transfer -/

theorem transferCommit_snd (st1 : Store) (sw dw : Wallet) (a : Nat) (amt : Int)
    (ty : TxType) (k o m : String) :
    (transferCommit st1 sw dw a amt ty k o m).2 =
      { id := st1.nextTxnId, idempotency_key := k, transaction_type := ty, user_id := o,
        asset_type_id := a, amount := amt, status := .COMPLETED, metadata := m,
        processed_at := none } := rfl

theorem transferCommit_fst_wallets (st1 : Store) (sw dw : Wallet) (a : Nat) (amt : Int)
    (ty : TxType) (k o m : String) :
    (transferCommit st1 sw dw a amt ty k o m).1.wallets =
      updateBalance (updateBalance st1.wallets sw.id (sw.balance - amt)) dw.id
        (dw.balance + amt) := rfl

theorem transferCommit_fst_transactions (st1 : Store) (sw dw : Wallet) (a : Nat)
    (amt : Int) (ty : TxType) (k o m : String) :
    (transferCommit st1 sw dw a amt ty k o m).1.transactions =
      st1.transactions ++ [(transferCommit st1 sw dw a amt ty k o m).2] := rfl

theorem transferCommit_fst_ledger (st1 : Store) (sw dw : Wallet) (a : Nat) (amt : Int)
    (ty : TxType) (k o m : String) :
    (transferCommit st1 sw dw a amt ty k o m).1.ledger_entries =
      st1.ledger_entries ++
        [⟨st1.nextTxnId, sw.id, .DEBIT, amt, sw.balance - amt⟩,
         ⟨st1.nextTxnId, dw.id, .CREDIT, amt, dw.balance + amt⟩] := rfl

theorem transferCommit_fst_nextTxnId (st1 : Store) (sw dw : Wallet) (a : Nat) (amt : Int)
    (ty : TxType) (k o m : String) :
    (transferCommit st1 sw dw a amt ty k o m).1.nextTxnId = st1.nextTxnId + 1 := rfl

theorem transferCommit_fst_nextWalletId (st1 : Store) (sw dw : Wallet) (a : Nat) (amt : Int)
    (ty : TxType) (k o m : String) :
    (transferCommit st1 sw dw a amt ty k o m).1.nextWalletId = st1.nextWalletId := rfl

/-! ## path lemmas for `transfer` -/

theorem transfer_amount_nonpos {st : Store} {f t : String} {a : Nat} {amt : Int}
    {ty : TxType} {k o m : String} (h : amt ≤ 0) :
    transfer st f t a amt ty k o m = .error (.plain "Amount must be positive") := by
  unfold transfer
  rw [if_pos h]

theorem transfer_ok_pos {st : Store} {f t : String} {a : Nat} {amt : Int}
    {ty : TxType} {k o m : String} {r : Store × Txn}
    (h : transfer st f t a amt ty k o m = .ok r) : 0 < amt := by
  by_contra hc
  rw [transfer_amount_nonpos (not_lt.mp hc)] at h
  simp at h

theorem transfer_replay {st : Store} {k : String} {t0 : Txn}
    (hk : findTxnByKey st.transactions k = some t0)
    (hst : t0.status = TxStatus.COMPLETED)
    (f t : String) (a : Nat) {amt : Int} (hamt : 0 < amt) (ty : TxType) (o m : String) :
    transfer st f t a amt ty k o m = .ok (st, t0) := by
  unfold transfer
  rw [if_neg (not_le.mpr hamt)]
  simp only [hk]
  rw [if_pos hst]

theorem transfer_conflict {st : Store} {k : String} {t0 : Txn}
    (hk : findTxnByKey st.transactions k = some t0)
    (hst : ¬ t0.status = TxStatus.COMPLETED)
    (f t : String) (a : Nat) {amt : Int} (hamt : 0 < amt) (ty : TxType) (o m : String) :
    transfer st f t a amt ty k o m =
      .error (.idempotency
        ("Transaction previously processed with status: " ++ statusText t0.status)) := by
  unfold transfer
  rw [if_neg (not_le.mpr hamt)]
  simp only [hk]
  rw [if_neg hst]

theorem transfer_stage_wallets (st : Store) (f t : String) (a : Nat) :
    ∃ sw dw,
      findWallet (ensureWallets st (sortStrings [f, t]) a).wallets f a = some sw ∧
      findWallet (ensureWallets st (sortStrings [f, t]) a).wallets t a = some dw ∧
      sw.balance = walletBalance st.wallets f a ∧
      dw.balance = walletBalance st.wallets t a ∧
      sw.user_id = f ∧ sw.asset_type_id = a ∧ dw.user_id = t ∧ dw.asset_type_id = a := by
  obtain ⟨sw, h1, h2, h3, h4⟩ :=
    ensureWallets_findWallet_self f st (sortStrings [f, t]) a (mem_sortStrings (by simp))
  obtain ⟨dw, g1, g2, g3, g4⟩ :=
    ensureWallets_findWallet_self t st (sortStrings [f, t]) a (mem_sortStrings (by simp))
  exact ⟨sw, dw, h1, g1, h2, g2, h3, h4, g3, g4⟩

theorem transfer_fresh_eq {st : Store} {f t : String} {a : Nat} {amt : Int}
    {ty : TxType} {k o m : String} {sw dw : Wallet}
    (hamt : 0 < amt) (hk : findTxnByKey st.transactions k = none)
    (hsw : findWallet (ensureWallets st (sortStrings [f, t]) a).wallets f a = some sw)
    (hdw : findWallet (ensureWallets st (sortStrings [f, t]) a).wallets t a = some dw) :
    transfer st f t a amt ty k o m =
      if sw.balance < amt then
        .error (.insufficientFunds
          ("Insufficient funds in source wallet (User: " ++ f ++ ")"))
      else
        .ok (transferCommit (ensureWallets st (sortStrings [f, t]) a) sw dw a amt ty k o m) := by
  unfold transfer
  rw [if_neg (not_le.mpr hamt)]
  simp only [hk]
  simp only [hsw, hdw]

theorem transfer_fresh_inv {st : Store} {f t : String} {a : Nat} {amt : Int}
    {ty : TxType} {k o m : String} {st' : Store} {txn : Txn}
    (hk : findTxnByKey st.transactions k = none)
    (h : transfer st f t a amt ty k o m = .ok (st', txn)) :
    ∃ sw dw,
      findWallet (ensureWallets st (sortStrings [f, t]) a).wallets f a = some sw ∧
      findWallet (ensureWallets st (sortStrings [f, t]) a).wallets t a = some dw ∧
      sw.balance = walletBalance st.wallets f a ∧
      dw.balance = walletBalance st.wallets t a ∧
      sw.user_id = f ∧ sw.asset_type_id = a ∧ dw.user_id = t ∧ dw.asset_type_id = a ∧
      ¬ sw.balance < amt ∧
      (st', txn) = transferCommit (ensureWallets st (sortStrings [f, t]) a) sw dw a amt ty k o m := by
  have hamt := transfer_ok_pos h
  obtain ⟨sw, dw, hsw, hdw, hb1, hb2, hu1, ha1, hu2, ha2⟩ := transfer_stage_wallets st f t a
  rw [transfer_fresh_eq hamt hk hsw hdw] at h
  by_cases hlt : sw.balance < amt
  · rw [if_pos hlt] at h
    simp at h
  · rw [if_neg hlt] at h
    simp only [Except.ok.injEq] at h
    exact ⟨sw, dw, hsw, hdw, hb1, hb2, hu1, ha1, hu2, ha2, hlt, h.symm⟩

theorem transfer_ok_key {st : Store} {f t : String} {a : Nat} {amt : Int}
    {ty : TxType} {k o m : String} {st' : Store} {txn : Txn}
    (h : transfer st f t a amt ty k o m = .ok (st', txn)) :
    findTxnByKey st'.transactions k = some txn ∧ txn.status = TxStatus.COMPLETED := by
  have hamt := transfer_ok_pos h
  cases hk : findTxnByKey st.transactions k with
  | some t0 =>
    by_cases hc : t0.status = TxStatus.COMPLETED
    · rw [transfer_replay hk hc f t a hamt ty o m] at h
      simp only [Except.ok.injEq, Prod.mk.injEq] at h
      obtain ⟨rfl, rfl⟩ := h
      exact ⟨hk, hc⟩
    · rw [transfer_conflict hk hc f t a hamt ty o m] at h
      simp at h
  | none =>
    obtain ⟨sw, dw, _, _, _, _, _, _, _, _, _, heq⟩ := transfer_fresh_inv hk h
    have hst' : st' = (transferCommit (ensureWallets st (sortStrings [f, t]) a) sw dw a amt ty k o m).1 :=
      congrArg Prod.fst heq
    have htxn : txn = (transferCommit (ensureWallets st (sortStrings [f, t]) a) sw dw a amt ty k o m).2 :=
      congrArg Prod.snd heq
    constructor
    · rw [hst', transferCommit_fst_transactions, ← htxn]
      have hk1 : findTxnByKey (ensureWallets st (sortStrings [f, t]) a).transactions k = none := by
        rw [ensureWallets_transactions]
        exact hk
      rw [findTxnByKey_append_none hk1]
      have : txn.idempotency_key = k := by rw [htxn, transferCommit_snd]
      simp [this]
    · rw [htxn, transferCommit_snd]

theorem stage_distinct_ids {st : Store} (hWF : st.WF) {f t : String} {a : Nat}
    {sw dw : Wallet} (hft : f ≠ t)
    (hsw : findWallet (ensureWallets st (sortStrings [f, t]) a).wallets f a = some sw)
    (hdw : findWallet (ensureWallets st (sortStrings [f, t]) a).wallets t a = some dw) :
    sw.id ≠ dw.id := by
  obtain ⟨_, hnd, _, _⟩ := ensureWallets_WF hWF (sortStrings [f, t]) a
  obtain ⟨hu1, _, hm1⟩ := findWallet_props hsw
  obtain ⟨hu2, _, hm2⟩ := findWallet_props hdw
  intro hid
  have heq := List.inj_on_of_nodup_map hnd hm1 hm2 hid
  apply hft
  rw [← hu1, ← hu2, heq]

theorem commit_walletBalance_src {st1 : Store} {f : String} {a : Nat} {sw dw : Wallet}
    (hne : sw.id ≠ dw.id) (hsw : findWallet st1.wallets f a = some sw)
    (amt : Int) (ty : TxType) (k o m : String) :
    walletBalance (transferCommit st1 sw dw a amt ty k o m).1.wallets f a =
      sw.balance - amt := by
  rw [walletBalance, transferCommit_fst_wallets, updateBalance_findWallet,
    updateBalance_findWallet, hsw]
  simp [hne]

theorem commit_walletBalance_dst {st1 : Store} {t : String} {a : Nat} {sw dw : Wallet}
    (hne : sw.id ≠ dw.id) (hdw : findWallet st1.wallets t a = some dw)
    (amt : Int) (ty : TxType) (k o m : String) :
    walletBalance (transferCommit st1 sw dw a amt ty k o m).1.wallets t a =
      dw.balance + amt := by
  rw [walletBalance, transferCommit_fst_wallets, updateBalance_findWallet,
    updateBalance_findWallet, hdw]
  simp [Ne.symm hne]

theorem commit_walletBalance_self {st1 : Store} {u : String} {a : Nat} {w : Wallet}
    (hw : findWallet st1.wallets u a = some w)
    (amt : Int) (ty : TxType) (k o m : String) :
    walletBalance (transferCommit st1 w w a amt ty k o m).1.wallets u a =
      w.balance + amt := by
  rw [walletBalance, transferCommit_fst_wallets, updateBalance_findWallet,
    updateBalance_findWallet, hw]
  simp

theorem commit_walletIdOf_src {st1 : Store} {f : String} {a : Nat} {sw dw : Wallet}
    (hne : sw.id ≠ dw.id) (hsw : findWallet st1.wallets f a = some sw)
    (amt : Int) (ty : TxType) (k o m : String) :
    walletIdOf (transferCommit st1 sw dw a amt ty k o m).1.wallets f a = sw.id := by
  rw [walletIdOf, transferCommit_fst_wallets, updateBalance_findWallet,
    updateBalance_findWallet, hsw]
  simp [hne]

theorem commit_walletIdOf_dst {st1 : Store} {t : String} {a : Nat} {sw dw : Wallet}
    (hne : sw.id ≠ dw.id) (hdw : findWallet st1.wallets t a = some dw)
    (amt : Int) (ty : TxType) (k o m : String) :
    walletIdOf (transferCommit st1 sw dw a amt ty k o m).1.wallets t a = dw.id := by
  rw [walletIdOf, transferCommit_fst_wallets, updateBalance_findWallet,
    updateBalance_findWallet, hdw]
  simp [Ne.symm hne]

theorem commit_walletIdOf_self {st1 : Store} {u : String} {a : Nat} {w : Wallet}
    (hw : findWallet st1.wallets u a = some w)
    (amt : Int) (ty : TxType) (k o m : String) :
    walletIdOf (transferCommit st1 w w a amt ty k o m).1.wallets u a = w.id := by
  rw [walletIdOf, transferCommit_fst_wallets, updateBalance_findWallet,
    updateBalance_findWallet, hw]
  simp

theorem commit_ledgerFor {st1 : Store}
    (hold : ∀ e ∈ st1.ledger_entries, e.transaction_id < st1.nextTxnId)
    (sw dw : Wallet) (a : Nat) (amt : Int) (ty : TxType) (k o m : String) :
    ledgerFor (transferCommit st1 sw dw a amt ty k o m).1.ledger_entries st1.nextTxnId =
      [⟨st1.nextTxnId, sw.id, .DEBIT, amt, sw.balance - amt⟩,
       ⟨st1.nextTxnId, dw.id, .CREDIT, amt, dw.balance + amt⟩] := by
  rw [ledgerFor, transferCommit_fst_ledger, List.filter_append]
  have h1 : st1.ledger_entries.filter (fun e => e.transaction_id == st1.nextTxnId) = [] := by
    rw [List.filter_eq_nil_iff]
    intro e he
    simpa using Nat.ne_of_lt (hold e he)
  rw [h1]
  simp [List.filter]

theorem transfer_ok_WF {st : Store} {f t : String} {a : Nat} {amt : Int}
    {ty : TxType} {k o m : String} {st' : Store} {txn : Txn}
    (hWF : st.WF) (h : transfer st f t a amt ty k o m = .ok (st', txn)) : st'.WF := by
  have hamt := transfer_ok_pos h
  cases hk : findTxnByKey st.transactions k with
  | some t0 =>
    by_cases hc : t0.status = TxStatus.COMPLETED
    · rw [transfer_replay hk hc f t a hamt ty o m] at h
      simp only [Except.ok.injEq, Prod.mk.injEq] at h
      obtain ⟨rfl, rfl⟩ := h
      exact hWF
    · rw [transfer_conflict hk hc f t a hamt ty o m] at h
      simp at h
  | none =>
    obtain ⟨sw, dw, hsw, hdw, _, _, _, _, _, _, _, heq⟩ := transfer_fresh_inv hk h
    obtain ⟨w1, w2, w3, w4⟩ := ensureWallets_WF hWF (sortStrings [f, t]) a
    have hst' : st' = (transferCommit (ensureWallets st (sortStrings [f, t]) a) sw dw a amt ty k o m).1 :=
      congrArg Prod.fst heq
    rw [hst']
    refine ⟨?_, ?_, ?_, ?_⟩
    · rw [transferCommit_fst_nextWalletId, transferCommit_fst_wallets]
      exact updateBalance_id_lt (updateBalance_id_lt w1)
    · rw [transferCommit_fst_wallets, updateBalance_map_id, updateBalance_map_id]
      exact w2
    · rw [transferCommit_fst_wallets, updateBalance_map_pair, updateBalance_map_pair]
      exact w3
    · rw [transferCommit_fst_ledger, transferCommit_fst_nextTxnId]
      intro e he
      rcases List.mem_append.mp he with hm | hm
      · exact Nat.lt_succ_of_lt (w4 e hm)
      · simp only [List.mem_cons, List.mem_singleton, List.not_mem_nil, or_false] at hm
        rcases hm with hm | hm <;> (rw [hm]; exact Nat.lt_succ_self _)

theorem transfer_ok_assetSum {st : Store} {f t : String} {a : Nat} {amt : Int}
    {ty : TxType} {k o m : String} {st' : Store} {txn : Txn}
    (hWF : st.WF) (hft : f ≠ t)
    (h : transfer st f t a amt ty k o m = .ok (st', txn)) (a' : Nat) :
    assetSum st'.wallets a' = assetSum st.wallets a' := by
  have hamt := transfer_ok_pos h
  cases hk : findTxnByKey st.transactions k with
  | some t0 =>
    by_cases hc : t0.status = TxStatus.COMPLETED
    · rw [transfer_replay hk hc f t a hamt ty o m] at h
      simp only [Except.ok.injEq, Prod.mk.injEq] at h
      obtain ⟨rfl, rfl⟩ := h
      rfl
    · rw [transfer_conflict hk hc f t a hamt ty o m] at h
      simp at h
  | none =>
    obtain ⟨sw, dw, hsw, hdw, hb1, hb2, hu1, ha1, hu2, ha2, hnlt, heq⟩ := transfer_fresh_inv hk h
    have hne : sw.id ≠ dw.id := stage_distinct_ids hWF hft hsw hdw
    obtain ⟨w1, w2, w3, w4⟩ := ensureWallets_WF hWF (sortStrings [f, t]) a
    have hst' : st' = (transferCommit (ensureWallets st (sortStrings [f, t]) a) sw dw a amt ty k o m).1 :=
      congrArg Prod.fst heq
    have hmem_sw : sw ∈ (ensureWallets st (sortStrings [f, t]) a).wallets :=
      (findWallet_props hsw).2.2
    have hmem_dw : dw ∈ (ensureWallets st (sortStrings [f, t]) a).wallets :=
      (findWallet_props hdw).2.2
    have hnd1 : ((updateBalance (ensureWallets st (sortStrings [f, t]) a).wallets sw.id
        (sw.balance - amt)).map Wallet.id).Nodup := by
      rw [updateBalance_map_id]
      exact w2
    have hmem_dw1 : dw ∈ updateBalance (ensureWallets st (sortStrings [f, t]) a).wallets sw.id
        (sw.balance - amt) :=
      mem_updateBalance hmem_dw (Ne.symm hne) _
    rw [hst', transferCommit_fst_wallets,
      updateBalance_assetSum hnd1 hmem_dw1 rfl (dw.balance + amt) a',
      updateBalance_assetSum w2 hmem_sw rfl (sw.balance - amt) a',
      ← ensureWallets_assetSum st (sortStrings [f, t]) a a']
    by_cases haa : a = a' <;> (simp [ha1, ha2, haa]; try ring)

/-! ## the claims -/

/-- C1: every successful fresh call of the Ledger Engine's transfer (reached
via topUp, grantBonus, or spend, under the stated engine precondition
`fromUser ≠ toUser`) with amount `amt` commits a state in which the source
wallet's balance is decreased by exactly `amt`, the destination wallet's
balance is increased by exactly `amt`, exactly two ledger entries exist for
the new transaction — a DEBIT on the source wallet with `balance_after`
equal to the new source balance and a CREDIT on the destination wallet with
`balance_after` equal to the new destination balance, both carrying `amt` —
and the returned Transaction record has status COMPLETED with that amount. -/
theorem C1_transfer_effects (st : Store) (f t : String) (a : Nat) (amt : Int)
    (ty : TxType) (k o m : String) {st' : Store} {txn : Txn}
    (hWF : st.WF) (hk : findTxnByKey st.transactions k = none) (hft : f ≠ t)
    (h : transfer st f t a amt ty k o m = .ok (st', txn)) :
    walletBalance st'.wallets f a = walletBalance st.wallets f a - amt ∧
    walletBalance st'.wallets t a = walletBalance st.wallets t a + amt ∧
    txn.status = TxStatus.COMPLETED ∧ txn.amount = amt ∧
    ledgerFor st'.ledger_entries txn.id =
      [⟨txn.id, walletIdOf st'.wallets f a, .DEBIT, amt, walletBalance st'.wallets f a⟩,
       ⟨txn.id, walletIdOf st'.wallets t a, .CREDIT, amt, walletBalance st'.wallets t a⟩] := by
  obtain ⟨sw, dw, hsw, hdw, hb1, hb2, hu1, ha1, hu2, ha2, hnlt, heq⟩ := transfer_fresh_inv hk h
  have hne : sw.id ≠ dw.id := stage_distinct_ids hWF hft hsw hdw
  have hst' : st' = (transferCommit (ensureWallets st (sortStrings [f, t]) a) sw dw a amt ty k o m).1 :=
    congrArg Prod.fst heq
  have htxn : txn = (transferCommit (ensureWallets st (sortStrings [f, t]) a) sw dw a amt ty k o m).2 :=
    congrArg Prod.snd heq
  obtain ⟨w1, w2, w3, w4⟩ := ensureWallets_WF hWF (sortStrings [f, t]) a
  have hsrc : walletBalance st'.wallets f a = sw.balance - amt := by
    rw [hst']
    exact commit_walletBalance_src hne hsw amt ty k o m
  have hdst : walletBalance st'.wallets t a = dw.balance + amt := by
    rw [hst']
    exact commit_walletBalance_dst hne hdw amt ty k o m
  have hsid : walletIdOf st'.wallets f a = sw.id := by
    rw [hst']
    exact commit_walletIdOf_src hne hsw amt ty k o m
  have hdid : walletIdOf st'.wallets t a = dw.id := by
    rw [hst']
    exact commit_walletIdOf_dst hne hdw amt ty k o m
  have htid : txn.id = (ensureWallets st (sortStrings [f, t]) a).nextTxnId := by
    rw [htxn, transferCommit_snd]
  refine ⟨by rw [hsrc, hb1], by rw [hdst, hb2], by rw [htxn, transferCommit_snd],
    by rw [htxn, transferCommit_snd], ?_⟩
  rw [hsrc, hdst, hsid, hdid, htid, hst']
  exact commit_ledgerFor w4 sw dw a amt ty k o m

/-- witness for C1: on the concrete store `stW`, a 20-unit top-up moves 20
from the system wallet to the user wallet. -/
theorem C1_transfer_effects_witness :
    walletBalance (applyTransfer stW SYSTEM_USER_ID "u1" 1 20 TxType.TOP_UP "k1" "u1" "").wallets
        SYSTEM_USER_ID 1 = walletBalance stW.wallets SYSTEM_USER_ID 1 - 20 ∧
    walletBalance (applyTransfer stW SYSTEM_USER_ID "u1" 1 20 TxType.TOP_UP "k1" "u1" "").wallets
        "u1" 1 = walletBalance stW.wallets "u1" 1 + 20 := by
  cases hE : transfer stW SYSTEM_USER_ID "u1" 1 20 TxType.TOP_UP "k1" "u1" "" with
  | error e =>
    have hok : (transfer stW SYSTEM_USER_ID "u1" 1 20 TxType.TOP_UP "k1" "u1" "").toOption.isSome = true := by
      decide
    rw [hE] at hok
    simp [Except.toOption] at hok
  | ok p =>
    obtain ⟨st', txn⟩ := p
    have h := C1_transfer_effects stW SYSTEM_USER_ID "u1" 1 20 TxType.TOP_UP "k1" "u1" ""
      (by decide) (by decide) (by decide) hE
    simp only [applyTransfer, hE]
    exact ⟨h.1, h.2.1⟩

/-- C2: once a call with idempotency key `k` has returned successfully,
replaying it returns the very same Transaction record (in particular the
same id) and the identical committed store — no wallet update and no ledger
entry is produced.  Because the replay returns the same store, the statement
applies to any number of later replays. -/
theorem C2_replay_idempotent (st : Store) (f t : String) (a : Nat) (amt : Int)
    (ty : TxType) (k o m : String) {st' : Store} {txn : Txn}
    (h : transfer st f t a amt ty k o m = .ok (st', txn)) :
    transfer st' f t a amt ty k o m = .ok (st', txn) := by
  obtain ⟨hk, hc⟩ := transfer_ok_key h
  exact transfer_replay hk hc f t a (transfer_ok_pos h) ty o m

/-- witness for C2: replaying the concrete top-up of `stW` leaves the
committed store exactly as after the first call. -/
theorem C2_replay_idempotent_witness :
    applyTransfer (applyTransfer stW SYSTEM_USER_ID "u1" 1 20 TxType.TOP_UP "k1" "u1" "")
        SYSTEM_USER_ID "u1" 1 20 TxType.TOP_UP "k1" "u1" "" =
      applyTransfer stW SYSTEM_USER_ID "u1" 1 20 TxType.TOP_UP "k1" "u1" "" := by
  cases hE : transfer stW SYSTEM_USER_ID "u1" 1 20 TxType.TOP_UP "k1" "u1" "" with
  | error e =>
    have hok : (transfer stW SYSTEM_USER_ID "u1" 1 20 TxType.TOP_UP "k1" "u1" "").toOption.isSome = true := by
      decide
    rw [hE] at hok
    simp [Except.toOption] at hok
  | ok p =>
    obtain ⟨st', txn⟩ := p
    have h2 := C2_replay_idempotent stW SYSTEM_USER_ID "u1" 1 20 TxType.TOP_UP "k1" "u1" "" hE
    simp only [applyTransfer, hE, h2]

/-- C3: with a fresh key and positive amount (and distinct parties per the
engine precondition), the transfer fails with InsufficientFunds exactly when
the source balance is strictly below the amount; any error leaves the
committed store untouched (the store transaction rolls back, so no
Transaction row, ledger entry, or balance change persists); and spending an
amount exactly equal to the balance succeeds, leaving the source balance 0. -/
theorem C3_insufficient_funds (st : Store) (f t : String) (a : Nat) (amt : Int)
    (ty : TxType) (k o m : String)
    (hWF : st.WF) (hk : findTxnByKey st.transactions k = none)
    (hamt : 0 < amt) (hft : f ≠ t) :
    ((∃ msg, transfer st f t a amt ty k o m = .error (.insufficientFunds msg)) ↔
      walletBalance st.wallets f a < amt) ∧
    (∀ e, transfer st f t a amt ty k o m = .error e →
      applyTransfer st f t a amt ty k o m = st) ∧
    (walletBalance st.wallets f a = amt →
      ∃ st' txn, transfer st f t a amt ty k o m = .ok (st', txn) ∧
        walletBalance st'.wallets f a = 0) := by
  obtain ⟨sw, dw, hsw, hdw, hb1, hb2, hu1, ha1, hu2, ha2⟩ := transfer_stage_wallets st f t a
  have hE : transfer st f t a amt ty k o m =
      if sw.balance < amt then
        .error (.insufficientFunds
          ("Insufficient funds in source wallet (User: " ++ f ++ ")"))
      else
        .ok (transferCommit (ensureWallets st (sortStrings [f, t]) a) sw dw a amt ty k o m) :=
    transfer_fresh_eq hamt hk hsw hdw
  refine ⟨⟨?_, ?_⟩, ?_, ?_⟩
  · rintro ⟨msg, hmsg⟩
    rw [hE] at hmsg
    by_cases hlt : sw.balance < amt
    · rw [← hb1]
      exact hlt
    · rw [if_neg hlt] at hmsg
      simp at hmsg
  · intro hlt
    refine ⟨"Insufficient funds in source wallet (User: " ++ f ++ ")", ?_⟩
    rw [hE, if_pos (hb1 ▸ hlt)]
  · intro e he
    simp [applyTransfer, he]
  · intro hbal
    have hnlt : ¬ sw.balance < amt := by
      rw [hb1, hbal]
      exact lt_irrefl amt
    refine ⟨_, _, by rw [hE, if_neg hnlt], ?_⟩
    have hne : sw.id ≠ dw.id := stage_distinct_ids hWF hft hsw hdw
    rw [commit_walletBalance_src hne hsw amt ty k o m, hb1, hbal]
    exact sub_self amt

/-- witness for C3: on `stW` (user balance 50), spending 60 fails with
InsufficientFunds, and exactly-50 spends to balance 0. -/
theorem C3_insufficient_funds_witness :
    (∃ msg, transfer stW "u1" SYSTEM_USER_ID 1 60 TxType.SPEND "k9" "u1" "" =
      .error (.insufficientFunds msg)) ∧
    (∃ st' txn, transfer stW "u1" SYSTEM_USER_ID 1 50 TxType.SPEND "k9" "u1" "" = .ok (st', txn) ∧
      walletBalance st'.wallets "u1" 1 = 0) := by
  have h60 := C3_insufficient_funds stW "u1" SYSTEM_USER_ID 1 60 TxType.SPEND "k9" "u1" ""
    (by decide) (by decide) (by decide) (by decide)
  have h50 := C3_insufficient_funds stW "u1" SYSTEM_USER_ID 1 50 TxType.SPEND "k9" "u1" ""
    (by decide) (by decide) (by decide) (by decide)
  exact ⟨h60.1.mpr (by decide), h50.2.2 (by decide)⟩

theorem applyOp_WF_assetSum {st : Store} {op : Op} (hWF : st.WF)
    (hop : op.userId ≠ SYSTEM_USER_ID) :
    (applyOp st op).WF ∧ ∀ a, assetSum (applyOp st op).wallets a = assetSum st.wallets a := by
  obtain ⟨kind, u, code, amt, k⟩ := op
  have hop' : u ≠ SYSTEM_USER_ID := hop
  cases kind with
  | TopUpOp =>
    unfold applyOp runOp topUp
    cases hA : getAssetType st.asset_types code with
    | none => simp only [hA]; exact ⟨hWF, fun a => True.intro⟩
    | some asset =>
      simp only [hA]
      cases hT : transfer st SYSTEM_USER_ID u asset.id amt TxType.TOP_UP k u "" with
      | error e => simp only [hT]; exact ⟨hWF, fun a => True.intro⟩
      | ok p =>
        obtain ⟨st', txn⟩ := p
        simp only [hT]
        exact ⟨transfer_ok_WF hWF hT,
          fun a => transfer_ok_assetSum hWF (fun hh => hop' hh.symm) hT a⟩
  | BonusOp =>
    unfold applyOp runOp grantBonus
    cases hA : getAssetType st.asset_types code with
    | none => simp only [hA]; exact ⟨hWF, fun a => True.intro⟩
    | some asset =>
      simp only [hA]
      cases hT : transfer st SYSTEM_USER_ID u asset.id amt TxType.BONUS k u "" with
      | error e => simp only [hT]; exact ⟨hWF, fun a => True.intro⟩
      | ok p =>
        obtain ⟨st', txn⟩ := p
        simp only [hT]
        exact ⟨transfer_ok_WF hWF hT,
          fun a => transfer_ok_assetSum hWF (fun hh => hop' hh.symm) hT a⟩
  | SpendOp =>
    unfold applyOp runOp spend
    cases hA : getAssetType st.asset_types code with
    | none => simp only [hA]; exact ⟨hWF, fun a => True.intro⟩
    | some asset =>
      simp only [hA]
      cases hT : transfer st u SYSTEM_USER_ID asset.id amt TxType.SPEND k u "" with
      | error e => simp only [hT]; exact ⟨hWF, fun a => True.intro⟩
      | ok p =>
        obtain ⟨st', txn⟩ := p
        simp only [hT]
        exact ⟨transfer_ok_WF hWF hT, fun a => transfer_ok_assetSum hWF hop' hT a⟩

/-- C4: for any single asset, the system-wide sum of wallet balances
(system wallet included) is invariant under any sequence of topUp,
grantBonus, and spend operations whose user is a genuine (non-system) party,
as the engine precondition `fromUser ≠ toUser` requires: every completed
operation moves the amount between the system wallet and the user wallet,
and every failed operation rolls back and changes nothing. -/
theorem C4_conservation (st : Store) (ops : List Op) (a : Nat)
    (hWF : st.WF) (hops : ∀ op ∈ ops, op.userId ≠ SYSTEM_USER_ID) :
    assetSum (applyOps st ops).wallets a = assetSum st.wallets a := by
  induction ops generalizing st with
  | nil => rfl
  | cons op ops ih =>
    have hstep := applyOp_WF_assetSum hWF (hops op (List.mem_cons_self op ops))
    have hrest := ih (applyOp st op) hstep.1 (fun o ho => hops o (List.mem_cons_of_mem op ho))
    calc assetSum (applyOps st (op :: ops)).wallets a
        = assetSum (applyOps (applyOp st op) ops).wallets a := rfl
      _ = assetSum (applyOp st op).wallets a := hrest
      _ = assetSum st.wallets a := hstep.2 a

/-- witness for C4: a concrete mixed sequence (top-up 20, spend 30, bonus 5)
on `stW` leaves the GOLD-wide balance sum unchanged. -/
theorem C4_conservation_witness :
    assetSum (applyOps stW opsW).wallets 1 = assetSum stW.wallets 1 :=
  C4_conservation stW opsW 1 (by decide) (by decide)

/-- C5: a call whose idempotency key names an existing Transaction with a
status other than COMPLETED (PENDING or FAILED) fails with the
IdempotencyError conflict, does not re-drive the transfer, and writes
nothing: the committed store is unchanged. -/
theorem C5_idempotency_conflict (st : Store) (f t : String) (a : Nat) (amt : Int)
    (ty : TxType) (k o m : String) (tx0 : Txn)
    (hamt : 0 < amt) (hk : findTxnByKey st.transactions k = some tx0)
    (hst : tx0.status ≠ TxStatus.COMPLETED) :
    transfer st f t a amt ty k o m =
      .error (.idempotency
        ("Transaction previously processed with status: " ++ statusText tx0.status)) ∧
    applyTransfer st f t a amt ty k o m = st := by
  have hE := transfer_conflict hk hst f t a hamt ty o m
  exact ⟨hE, by simp [applyTransfer, hE]⟩

/-- witness for C5: on `stP`, whose key "kp" is bound to a PENDING
transaction, a new call with that key fails with the conflict error and
leaves the store unchanged. -/
theorem C5_idempotency_conflict_witness :
    transfer stP "u9" "u8" 1 5 TxType.TOP_UP "kp" "u9" "" =
      .error (.idempotency
        ("Transaction previously processed with status: " ++ statusText txnP.status)) ∧
    applyTransfer stP "u9" "u8" 1 5 TxType.TOP_UP "kp" "u9" "" = stP :=
  C5_idempotency_conflict stP "u9" "u8" 1 5 TxType.TOP_UP "kp" "u9" "" txnP
    (by decide) (by decide) (by decide)

/-- C6: a nonpositive amount (zero or negative) makes transfer — and hence
topUp, grantBonus, and spend — fail with the "Amount must be positive"
error, and an asset code matching no provisioned asset makes each wrapper
fail with the "Invalid asset code" error; in every case the committed store
is unchanged (no Transaction, wallet, or ledger row is written). -/
theorem C6_invalid_argument (st : Store) (u code k : String) (amt : Int) :
    (amt ≤ 0 → ∀ f t a ty o m,
      transfer st f t a amt ty k o m = .error (.plain "Amount must be positive") ∧
      applyTransfer st f t a amt ty k o m = st) ∧
    (amt ≤ 0 → ∀ asset, getAssetType st.asset_types code = some asset →
      topUp st u code amt k = .error (.plain "Amount must be positive") ∧
      grantBonus st u code amt k = .error (.plain "Amount must be positive") ∧
      spend st u code amt k = .error (.plain "Amount must be positive")) ∧
    (getAssetType st.asset_types code = none →
      topUp st u code amt k = .error (.plain ("Invalid asset code: " ++ code)) ∧
      grantBonus st u code amt k = .error (.plain ("Invalid asset code: " ++ code)) ∧
      spend st u code amt k = .error (.plain ("Invalid asset code: " ++ code)) ∧
      applyOp st ⟨.TopUpOp, u, code, amt, k⟩ = st ∧
      applyOp st ⟨.BonusOp, u, code, amt, k⟩ = st ∧
      applyOp st ⟨.SpendOp, u, code, amt, k⟩ = st) := by
  refine ⟨?_, ?_, ?_⟩
  · intro hamt f t a ty o m
    have hE : transfer st f t a amt ty k o m = .error (.plain "Amount must be positive") :=
      transfer_amount_nonpos hamt
    exact ⟨hE, by simp [applyTransfer, hE]⟩
  · intro hamt asset hA
    refine ⟨?_, ?_, ?_⟩ <;>
      simp [topUp, grantBonus, spend, hA, transfer_amount_nonpos hamt]
  · intro hA
    refine ⟨?_, ?_, ?_, ?_, ?_, ?_⟩ <;>
      simp [topUp, grantBonus, spend, applyOp, runOp, hA]

/-- witness for C6: zero amount and the unknown code "XYZ" are both rejected
on the concrete store `stW` with no store write. -/
theorem C6_invalid_argument_witness :
    transfer stW "a" "b" 1 0 TxType.TOP_UP "k6" "b" "" =
      .error (.plain "Amount must be positive") ∧
    topUp stW "u1" "GOLD" 0 "k6" = .error (.plain "Amount must be positive") ∧
    topUp stW "u1" "XYZ" 5 "k7" = .error (.plain ("Invalid asset code: " ++ "XYZ")) ∧
    applyOp stW ⟨.TopUpOp, "u1", "XYZ", 5, "k7"⟩ = stW := by
  have h0 := C6_invalid_argument stW "u1" "GOLD" "k6" 0
  have h5 := C6_invalid_argument stW "u1" "XYZ" "k7" 5
  exact ⟨(h0.1 (by decide) "a" "b" 1 TxType.TOP_UP "b" "").1,
    (h0.2.1 (by decide) ⟨1, "Gold Coins", "GOLD"⟩ (by decide)).1,
    (h5.2.2 (by decide)).1,
    (h5.2.2 (by decide)).2.2.2.1⟩

/-- C7: the advisory-lock key derivation is a deterministic function of the
set of party ids and the asset id, order-insensitive in the party
identities: swapping the two user ids yields the same key, so a SPEND
(user → system) and a TOP_UP (system → user) on the same (user, asset)
derive the same key; and the key is obtained by sorting the string parts
lexicographically, joining them with "-", folding the character codes
through h = (h * 32) − h + code (i.e. (h << 5) − h + code), and reducing to
a signed 64-bit integer. -/
theorem C7_lock_key_symmetric (u v : String) (a : Nat) :
    generateLockKey [u, v, toString a] = generateLockKey [v, u, toString a] ∧
    generateLockKey [u, SYSTEM_USER_ID, toString a] =
      generateLockKey [SYSTEM_USER_ID, u, toString a] ∧
    generateLockKey [u, v, toString a] =
      asIntN64 (jsHash (String.intercalate "-" (sortStrings [u, v, toString a]))) :=
  ⟨generateLockKey_perm (List.Perm.swap v u [toString a]),
   generateLockKey_perm (List.Perm.swap SYSTEM_USER_ID u [toString a]),
   rfl⟩

/-- C8 counterexample: the claim says the final step stamps `processed_at`,
but the code's final UPDATE sets only `status`; on the concrete store `stW`
a successful transfer commits COMPLETED with `processed_at` still NULL. -/
theorem C8_processed_at_counterexample :
    (transfer stW SYSTEM_USER_ID "u1" 1 20 TxType.TOP_UP "k1" "u1" "").toOption.map
        (fun p => (p.2.status, p.2.processed_at)) = some (TxStatus.COMPLETED, none) := by
  decide

/-- C8 as amended: for every successful fresh transfer, the final step
inside the store transaction updates the Transaction row's status to
COMPLETED and persists the row, but does not set `processed_at`, which
remains NULL. -/
theorem C8_amended_status_only (st : Store) (f t : String) (a : Nat)
    (amt : Int) (ty : TxType) (k o m : String) {st' : Store} {txn : Txn}
    (hk : findTxnByKey st.transactions k = none)
    (h : transfer st f t a amt ty k o m = .ok (st', txn)) :
    txn.status = TxStatus.COMPLETED ∧ txn.processed_at = none ∧ txn ∈ st'.transactions := by
  obtain ⟨sw, dw, _, _, _, _, _, _, _, _, _, heq⟩ := transfer_fresh_inv hk h
  have htxn : txn = (transferCommit (ensureWallets st (sortStrings [f, t]) a) sw dw a amt ty k o m).2 :=
    congrArg Prod.snd heq
  have hst' : st' = (transferCommit (ensureWallets st (sortStrings [f, t]) a) sw dw a amt ty k o m).1 :=
    congrArg Prod.fst heq
  refine ⟨by rw [htxn, transferCommit_snd], by rw [htxn, transferCommit_snd], ?_⟩
  rw [hst', transferCommit_fst_transactions, ← htxn]
  exact List.mem_append_right _ (List.mem_singleton.mpr rfl)

/-- witness for the amended C8: the concrete successful top-up returns a
record whose `processed_at` is not set. -/
theorem C8_amended_status_only_witness :
    (transfer stW SYSTEM_USER_ID "u1" 1 20 TxType.TOP_UP "k1" "u1" "").toOption.map
        (fun p => p.2.processed_at.isSome) = some false := by
  cases hE : transfer stW SYSTEM_USER_ID "u1" 1 20 TxType.TOP_UP "k1" "u1" "" with
  | error e =>
    have hok : (transfer stW SYSTEM_USER_ID "u1" 1 20 TxType.TOP_UP "k1" "u1" "").toOption.isSome = true := by
      decide
    rw [hE] at hok
    simp [Except.toOption] at hok
  | ok p =>
    obtain ⟨st', txn⟩ := p
    have h := C8_amended_status_only stW SYSTEM_USER_ID "u1" 1 20 TxType.TOP_UP "k1" "u1" ""
      (by decide) hE
    simp [Except.toOption, h.2.1]

/-- C9: transfer never checks the stated precondition fromUser ≠ toUser.
With both parties equal (e.g. a top-up or spend for the system user's own
id) and sufficient balance, the operation succeeds: both balance UPDATEs hit
the same wallet row, the CREDIT-side update — computed from the balance read
before the DEBIT-side update — overwrites the DEBIT-side one, so the
committed balance is the prior balance plus the amount, while the two ledger
entries record balance_after values old − amt and old + amt whose signed net
is 0 and does not match the +amt balance change (amt ≠ 0); the per-asset
balance sum grows by amt, violating money conservation and ledger
reconstruction. -/
theorem C9_self_transfer (st : Store) (u : String) (a : Nat) (amt : Int)
    (ty : TxType) (k o m : String)
    (hWF : st.WF) (hk : findTxnByKey st.transactions k = none)
    (hamt : 0 < amt) (hbal : amt ≤ walletBalance st.wallets u a) :
    ∃ st' txn, transfer st u u a amt ty k o m = .ok (st', txn) ∧
      walletBalance st'.wallets u a = walletBalance st.wallets u a + amt ∧
      ledgerFor st'.ledger_entries txn.id =
        [⟨txn.id, walletIdOf st'.wallets u a, .DEBIT, amt, walletBalance st.wallets u a - amt⟩,
         ⟨txn.id, walletIdOf st'.wallets u a, .CREDIT, amt, walletBalance st.wallets u a + amt⟩] ∧
      ((ledgerFor st'.ledger_entries txn.id).map entryDelta).sum = 0 ∧
      walletBalance st'.wallets u a - walletBalance st.wallets u a = amt ∧ amt ≠ 0 ∧
      assetSum st'.wallets a = assetSum st.wallets a + amt := by
  obtain ⟨sw, dw, hsw, hdw, hb1, hb2, hu1, ha1, hu2, ha2⟩ := transfer_stage_wallets st u u a
  have hswdw : dw = sw := by
    rw [hsw] at hdw
    exact (Option.some.inj hdw).symm
  subst hswdw
  have hnlt : ¬ dw.balance < amt := by
    rw [hb1]
    exact not_lt.mpr hbal
  have hE : transfer st u u a amt ty k o m =
      .ok (transferCommit (ensureWallets st (sortStrings [u, u]) a) dw dw a amt ty k o m) := by
    rw [transfer_fresh_eq hamt hk hsw hsw, if_neg hnlt]
  obtain ⟨w1, w2, w3, w4⟩ := ensureWallets_WF hWF (sortStrings [u, u]) a
  refine ⟨(transferCommit (ensureWallets st (sortStrings [u, u]) a) dw dw a amt ty k o m).1,
    (transferCommit (ensureWallets st (sortStrings [u, u]) a) dw dw a amt ty k o m).2,
    hE, ?_, ?_, ?_, ?_, ne_of_gt hamt, ?_⟩
  · rw [commit_walletBalance_self hsw amt ty k o m, hb1]
  · simp only [transferCommit_snd]
    rw [commit_walletIdOf_self hsw amt ty k o m, ← hb1,
      commit_ledgerFor w4 dw dw a amt ty k o m]
  · simp only [transferCommit_snd]
    rw [commit_ledgerFor w4 dw dw a amt ty k o m]
    simp [entryDelta]
  · rw [commit_walletBalance_self hsw amt ty k o m, hb1]
    ring
  · have hmem_dw : dw ∈ (ensureWallets st (sortStrings [u, u]) a).wallets :=
      (findWallet_props hsw).2.2
    have hnd1 : ((updateBalance (ensureWallets st (sortStrings [u, u]) a).wallets dw.id
        (dw.balance - amt)).map Wallet.id).Nodup := by
      rw [updateBalance_map_id]
      exact w2
    have hmem1 : ({ dw with balance := dw.balance - amt, version := dw.version + 1 } : Wallet) ∈
        updateBalance (ensureWallets st (sortStrings [u, u]) a).wallets dw.id
          (dw.balance - amt) := by
      unfold updateBalance
      have hif : (if dw.id = dw.id then
          { dw with balance := dw.balance - amt, version := dw.version + 1 } else dw) =
          { dw with balance := dw.balance - amt, version := dw.version + 1 } := if_pos rfl
      exact hif ▸ List.mem_map_of_mem _ hmem_dw
    rw [transferCommit_fst_wallets,
      updateBalance_assetSum hnd1 hmem1 rfl (dw.balance + amt) a,
      updateBalance_assetSum w2 hmem_dw rfl (dw.balance - amt) a,
      ← ensureWallets_assetSum st (sortStrings [u, u]) a a]
    simp only [ha1, if_pos]
    ring

/-- witness for C9: a self top-up of 20 on the system wallet of `stW`
succeeds and grows the GOLD-wide balance sum by 20. -/
theorem C9_self_transfer_witness :
    ∃ st' txn,
      transfer stW SYSTEM_USER_ID SYSTEM_USER_ID 1 20 TxType.TOP_UP "k1" SYSTEM_USER_ID "" =
        .ok (st', txn) ∧
      walletBalance st'.wallets SYSTEM_USER_ID 1 = walletBalance stW.wallets SYSTEM_USER_ID 1 + 20 ∧
      ledgerFor st'.ledger_entries txn.id =
        [⟨txn.id, walletIdOf st'.wallets SYSTEM_USER_ID 1, .DEBIT, 20,
          walletBalance stW.wallets SYSTEM_USER_ID 1 - 20⟩,
         ⟨txn.id, walletIdOf st'.wallets SYSTEM_USER_ID 1, .CREDIT, 20,
          walletBalance stW.wallets SYSTEM_USER_ID 1 + 20⟩] ∧
      ((ledgerFor st'.ledger_entries txn.id).map entryDelta).sum = 0 ∧
      walletBalance st'.wallets SYSTEM_USER_ID 1 - walletBalance stW.wallets SYSTEM_USER_ID 1 = 20 ∧
      (20 : Int) ≠ 0 ∧
      assetSum st'.wallets 1 = assetSum stW.wallets 1 + 20 :=
  C9_self_transfer stW SYSTEM_USER_ID 1 20 TxType.TOP_UP "k1" SYSTEM_USER_ID ""
    (by decide) (by decide) (by decide) (by decide)

/-- C10: the Idempotency Gate compares nothing but the key: whenever key `k`
names an existing COMPLETED Transaction, any later call using `k` — with any
source, destination, asset, amount, kind, owner, or metadata, however
different from the original call — returns that original record unchanged
and reports no error. -/
theorem C10_replay_ignores_params (st : Store) (k : String) (t0 : Txn)
    (hk : findTxnByKey st.transactions k = some t0)
    (hc : t0.status = TxStatus.COMPLETED)
    (f t : String) (a : Nat) (amt : Int) (ty : TxType) (o m : String)
    (hamt : 0 < amt) :
    transfer st f t a amt ty k o m = .ok (st, t0) :=
  transfer_replay hk hc f t a hamt ty o m

/-- witness for C10: on `stC` the key "k0" belongs to a 25-unit TOP_UP for
"u1"; a replay pretending to be a 999-unit SPEND between unrelated users on
an unknown asset still returns the original record. -/
theorem C10_replay_ignores_params_witness :
    transfer stC "u7" "u8" 42 999 TxType.SPEND "k0" "u7" "zz" = .ok (stC, txn0) :=
  C10_replay_ignores_params stC "k0" txn0 (by decide) (by decide)
    "u7" "u8" 42 999 TxType.SPEND "u7" "zz" (by decide)

end Dino
